import Mathlib

/-!
Verification of the sketch-to-sky wing-generation core.

The geometry pipeline is embedded over exact rationals (`ℚ`): every
floating-point quantity of the source becomes a rational, and the one
transcendental quantity used by the lofting code (the tangent of the sweep
angle) is passed in as an explicit rational parameter `tanSweep`, exactly as
the code passes the precomputed `tan(sweep_rad)` value into its vectorised
arithmetic.  All definitions are computable and decidable so that concrete
inputs can be evaluated.
-/

/-- A 3-D point, the element type of the vertex buffer. -/
structure P3 where
  x : ℚ
  y : ℚ
  z : ℚ
deriving DecidableEq, Repr, Inhabited

/-- Wing shape parameters (`WingParameters` dataclass of `ai/extraction.py`).
The source field `taper_ratio` is named `taper` here. -/
structure WingParameters where
  root_chord : ℚ
  semi_span : ℚ
  sweep_angle_deg : ℚ
  taper : ℚ
deriving DecidableEq, Repr

/-- Derived tip chord (`WingParameters.tip_chord` property). -/
def WingParameters.tip_chord (p : WingParameters) : ℚ :=
  p.root_chord * p.taper

/-- The field a validation failure identifies: each constructor corresponds to
one of the four error messages raised by `_validate_params` /
`validate_wing_parameters`. -/
inductive GeomField
  | rootChordF
  | semiSpanF
  | taperRatioF
  | sweepAngleF
deriving DecidableEq, Repr

/-- Wing parameter validator (`_validate_params` in `ai/extraction.py` and
`validate_wing_parameters` in `services/services.py`): the four guards, in
source order, each raising an error naming the offending field. -/
def validate_wing_parameters (p : WingParameters) : Except GeomField Unit :=
  if p.root_chord ≤ 0 then .error .rootChordF
  else if p.semi_span ≤ 0 then .error .semiSpanF
  else if p.taper ≤ 0 then .error .taperRatioF
  else if ¬ (-90 ≤ p.sweep_angle_deg ∧ p.sweep_angle_deg ≤ 90) then .error .sweepAngleF
  else .ok ()

/-- `np.linspace a b n`: `n` evenly spaced samples from `a` to `b` inclusive. -/
def linspace (a b : ℚ) (n : ℕ) : List ℚ :=
  if n = 0 then []
  else if n = 1 then [a]
  else (List.range n).map (fun j : ℕ => a + (b - a) * (j : ℚ) / ((n : ℚ) - 1))

/-- Polynomial evaluation of `calculate_polynomial_y` / `_evaluate_polynomial`:
coefficient `i` multiplies `x ^ (30 - i)` (the source iterates over the 31
coefficient columns of the airfoil record). -/
def evalPoly31 (coeffs : List ℚ) (x : ℚ) : ℚ :=
  (coeffs.enum.map (fun ic => ic.2 * x ^ (30 - ic.1))).sum

/-- Airfoil profile decoder (`get_airfoil_coords` in `services/services.py`,
`_get_airfoil_profile` in `ai/extraction.py`), parameterized over the two
coefficient rows of the airfoil record and the sample count `n` (the sources
fix `n` to 100 resp. 120): evaluate both surface polynomials on
`linspace 0 1 n`, divide the upper surface by the scaling factor 1,000,000,
and return reversed-upper ++ unreversed-lower for both coordinates. -/
def get_airfoil_coords (upper lower : List ℚ) (n : ℕ) : List ℚ × List ℚ :=
  let xs := linspace 0 1 n
  let yUpper := xs.map (fun x => evalPoly31 upper x / 1000000)
  let yLower := xs.map (fun x => evalPoly31 lower x)
  (xs.reverse ++ xs, yUpper.reverse ++ yLower)

/-- Per-station chord of `_build_wing_mesh` (lines 172-173 of
`ai/extraction.py`): the linear-taper interpolation followed by
`np.clip(·, 0.05, None)`, i.e. a lower clamp at 0.05. -/
def chord_at (p : WingParameters) (yv : ℚ) : ℚ :=
  max (p.root_chord * (1 - (1 - p.taper) * (|yv| / p.semi_span))) (1/20)

/-- Station grid of `_build_wing_mesh`:
`np.linspace(-semi_span, semi_span, nSec)` (the source fixes
`nSec = NUM_SPAN_SECTIONS = 24`). -/
def y_positions (p : WingParameters) (nSec : ℕ) : List ℚ :=
  linspace (-p.semi_span) p.semi_span nSec

/-- The number of span sections used by `_build_wing_mesh`
(`NUM_SPAN_SECTIONS`). -/
def NUM_SPAN_SECTIONS : ℕ := 24

/-- The thickness factor of `ai/extraction.py` (`THICKNESS_FACTOR = 0.08`). -/
def THICKNESS_FACTOR : ℚ := 8/100

/-- One cross-section of `_build_wing_mesh` at station coordinate `yv`:
the profile scaled by the station chord, translated in x by the swept
leading-edge offset `|yv| * tan(sweep)`, thickness scaled by
`chord * THICKNESS_FACTOR`. -/
def station_section (xProf zProf : List ℚ) (p : WingParameters) (tanSweep : ℚ)
    (yv : ℚ) : List P3 :=
  let c := chord_at p yv
  let xle := |yv| * tanSweep
  (xProf.zip zProf).map (fun xz => ⟨xz.1 * c + xle, yv, xz.2 * c * THICKNESS_FACTOR⟩)

/-- The full vertex buffer of `_build_wing_mesh` before cleanup: the
concatenation of all station cross-sections in station order. -/
def loft_vertices (xProf zProf : List ℚ) (p : WingParameters) (tanSweep : ℚ)
    (nSec : ℕ) : List P3 :=
  ((y_positions p nSec).map (station_section xProf zProf p tanSweep)).flatten

/-- A triangle of the index buffer: three vertex indices. -/
abbrev Tri : Type := ℕ × ℕ × ℕ

/-- The two triangles `_build_wing_mesh` emits for the quad between profile
index `pt` and `pt + 1` of stations starting at vertex offsets `startCurr`
and `startNext` (lines 194-199 of `ai/extraction.py`:
`[v0, v1, v2]` and `[v2, v1, v3]`). -/
def quad_faces (startCurr startNext pt : ℕ) : List Tri :=
  [(startCurr + pt, startNext + pt, startCurr + pt + 1),
   (startCurr + pt + 1, startNext + pt, startNext + pt + 1)]

/-- All faces `_build_wing_mesh` emits between one pair of adjacent stations:
the quads over `pt ∈ [0, numPoints-1)` followed by the closing quad that
reconnects the last profile point to the first (lines 200-205). -/
def section_faces (numPoints startCurr startNext : ℕ) : List Tri :=
  ((List.range (numPoints - 1)).map (quad_faces startCurr startNext)).flatten ++
    [(startCurr + numPoints - 1, startNext + numPoints - 1, startCurr),
     (startCurr, startNext + numPoints - 1, startNext)]

/-- The full face buffer of `_build_wing_mesh` before cleanup: section faces
for every pair of adjacent stations. -/
def build_faces (nSections numPoints : ℕ) : List Tri :=
  ((List.range (nSections - 1)).map
    (fun sec => section_faces numPoints (sec * numPoints) ((sec + 1) * numPoints))).flatten

/-- The quad-strip reference construction of the specification: for stations
`sec`, `sec+1` and profile indices `pt`, `(pt+1) mod numPoints` (wrapping so
the last profile point reconnects to the first), the two triangles of the
quad formed by the four corresponding vertices. -/
def wrap_quad (numPoints sec pt : ℕ) : List Tri :=
  let curr := sec * numPoints
  let next := (sec + 1) * numPoints
  let pt1 := (pt + 1) % numPoints
  [(curr + pt, next + pt, curr + pt1),
   (curr + pt1, next + pt, next + pt1)]

/-- The quad-strip reference face list: two triangles for every pair of
adjacent stations and every pair of adjacent (mod-wrapped) profile indices. -/
def quad_strip_faces (nSections numPoints : ℕ) : List Tri :=
  ((List.range (nSections - 1)).map
    (fun sec => ((List.range numPoints).map (wrap_quad numPoints sec)).flatten)).flatten

/-- A mesh as handed to / produced by the mesh stage: a vertex buffer and a
triangle index buffer. -/
structure RawMesh where
  verts : List P3
  faces : List Tri
deriving Repr

/-- The mesh-construction failure of `_build_wing_mesh`
(`ExtractionError("Insufficient airfoil resolution to build mesh")`). -/
inductive MeshError
  | insufficientPoints
deriving DecidableEq, Repr

/-- The raw mesh `_build_wing_mesh` assembles before cleanup: the lofted
vertex buffer over `NUM_SPAN_SECTIONS` stations and the quad-strip face
buffer over the profile's point count. -/
def raw_mesh_of (xProf zProf : List ℚ) (p : WingParameters) (tanSweep : ℚ) : RawMesh :=
  { verts := loft_vertices xProf zProf p tanSweep NUM_SPAN_SECTIONS,
    faces := build_faces NUM_SPAN_SECTIONS xProf.length }

/-- `_build_wing_mesh` up to (and excluding) the trimesh cleanup calls:
fails when the profile has fewer than 4 points, otherwise builds the lofted
vertex buffer over `NUM_SPAN_SECTIONS` stations and the quad-strip face
buffer. -/
def build_wing_mesh (xProf zProf : List ℚ) (p : WingParameters) (tanSweep : ℚ) :
    Except MeshError RawMesh :=
  if xProf.length < 4 then .error .insufficientPoints
  else .ok (raw_mesh_of xProf zProf p tanSweep)

/-- The mirror reflection about the y = 0 plane. -/
def mirrorP3 (v : P3) : P3 := ⟨v.x, -v.y, v.z⟩

/-- The three vertex positions a face refers to (out-of-range indices read the
default point; the meshes considered always satisfy index validity). -/
def tri_pos (verts : List P3) (f : Tri) : P3 × P3 × P3 :=
  (verts.getD f.1 default, verts.getD f.2.1 default, verts.getD f.2.2 default)

/-- A triangle has zero area exactly when the cross product of its two edge
vectors vanishes. -/
def zero_area (a b c : P3) : Bool :=
  let ux := b.x - a.x
  let uy := b.y - a.y
  let uz := b.z - a.z
  let vx := c.x - a.x
  let vy := c.y - a.y
  let vz := c.z - a.z
  decide (uy * vz - uz * vy = 0 ∧ uz * vx - ux * vz = 0 ∧ ux * vy - uy * vx = 0)

/-- Modelled from the spec: `mesh.remove_degenerate_faces()` (a trimesh
library call, not repository code) drops the triangles of zero area and keeps
the vertex buffer. -/
def remove_degenerate (m : RawMesh) : RawMesh :=
  { m with faces := m.faces.filter (fun f => ! zero_area (tri_pos m.verts f).1
      (tri_pos m.verts f).2.1 (tri_pos m.verts f).2.2) }

/-- Modelled from the spec: `mesh.remove_duplicate_faces()` (trimesh library)
drops exact duplicate triangles, keeping the first occurrence of each. -/
def remove_duplicate (m : RawMesh) : RawMesh :=
  { m with faces := m.faces.dedup }

/-- Modelled from the spec: `mesh.remove_infinite_values()` (trimesh library)
drops or replaces non-finite vertex coordinates; in this exact-rational
embedding every coordinate is finite, so the pass keeps the mesh unchanged. -/
def remove_infinite (m : RawMesh) : RawMesh := m

/-- Whether vertex index `i` is referenced by some face of `m`. -/
def referenced (m : RawMesh) (i : ℕ) : Bool :=
  m.faces.any (fun f => f.1 = i ∨ f.2.1 = i ∨ f.2.2 = i)

/-- The indices of the vertices of `m` that are referenced by some face, in
increasing order. -/
def keep_list (m : RawMesh) : List ℕ :=
  (List.range m.verts.length).filter (referenced m)

/-- Modelled from the spec: `mesh.remove_unreferenced_vertices()` (trimesh
library) keeps exactly the vertices referenced by some face and remaps every
face index to the position of its vertex in the kept list. -/
def remove_unreferenced (m : RawMesh) : RawMesh :=
  { verts := (keep_list m).map (fun i => m.verts.getD i default),
    faces := m.faces.map (fun f =>
      ((keep_list m).indexOf f.1, (keep_list m).indexOf f.2.1,
        (keep_list m).indexOf f.2.2)) }

/-- Modelled from the spec: `mesh.fix_normals()` (trimesh library) recomputes
consistent outward normals by reorienting triangle winding; it moves no
vertex and changes no vertex reference, so on the observables verified here
(index validity, referenced-vertex sets, triangle areas) it is the
identity. -/
def fix_normals (m : RawMesh) : RawMesh := m

/-- Modelled from the spec: `mesh.merge_vertices()` (trimesh library) merges
coincident vertices: the vertex buffer keeps the first occurrence of each
distinct position and every face index is remapped to the position of its
vertex's first occurrence. -/
def merge_vertices (m : RawMesh) : RawMesh :=
  { verts := m.verts.dedup,
    faces := m.faces.map (fun f =>
      (m.verts.dedup.indexOf (m.verts.getD f.1 default),
        m.verts.dedup.indexOf (m.verts.getD f.2.1 default),
        m.verts.dedup.indexOf (m.verts.getD f.2.2 default))) }

/-- The cleanup chain of `_build_wing_mesh` (lines 208-213), in the order the
source applies it: degenerate faces, duplicate faces, infinite values,
unreferenced vertices, normals, vertex merge. -/
def cleanup (m : RawMesh) : RawMesh :=
  merge_vertices (fix_normals (remove_unreferenced (remove_infinite
    (remove_duplicate (remove_degenerate m)))))

/-- Index validity: every entry of the triangle index buffer is a valid
vertex index. -/
def validIdx (m : RawMesh) : Prop :=
  ∀ f ∈ m.faces, f.1 < m.verts.length ∧ f.2.1 < m.verts.length ∧ f.2.2 < m.verts.length

/-- The meshing strategies named by the specification. -/
inductive MeshingStrategy
  | lofted
  | convexHull
deriving DecidableEq, Repr

/-- What the services pipeline hands to the trimesh library at its meshing
step: a vertex cloud, the face connectivity supplied with it (if any), and
the meshing operation requested. -/
structure MeshRequest where
  cloud : List P3
  providedFaces : Option (List Tri)
  strategy : MeshingStrategy

/-- The thickness factor of `services/services.py`
(`THICKNESS_VISUAL_FACTOR = 100.0`). -/
def THICKNESS_VISUAL_FACTOR : ℚ := 100

/-- The number of span stations used by `export_3d_wing` (`n_span = 20`). -/
def N_SPAN : ℕ := 20

/-- The meshing step of `export_3d_wing` in `services/services.py`
(lines 190-229): build the right-semi-span stations over
`linspace 0 semi_span 20` with the unclamped linear-taper chord, mirror the
points with positive `y`, and hand the unordered cloud to
`trimesh.Trimesh(vertices=vertices).convex_hull` — no face list is supplied
and the convex-hull operation is requested on every call; the function has no
triangulation-policy parameter. `tanSweep` stands for the precomputed
`np.tan(np.deg2rad(sweep_deg))`. -/
def export_3d_wing_request (xNorm yNorm : List ℚ) (cr s tanSweep taperR : ℚ) :
    MeshRequest :=
  let ys := linspace 0 s N_SPAN
  let rightVerts := (ys.map (fun yi =>
    let c := cr * (1 - (1 - taperR) * (yi / s))
    let xle := yi * tanSweep
    (xNorm.zip yNorm).map
      (fun xz => P3.mk (xz.1 * c + xle) yi (xz.2 * c * THICKNESS_VISUAL_FACTOR)))).flatten
  let leftVerts := (rightVerts.filter (fun v => decide (0 < v.y))).map
    (fun v => ⟨v.x, -v.y, v.z⟩)
  { cloud := rightVerts ++ leftVerts,
    providedFaces := none,
    strategy := .convexHull }

/-- Derived metrics of `generate_3d_model` in `ai/extraction.py`
(lines 239-241): total span, wing area, and the aspect ratio, which is `None`
unless the wing area is positive. -/
structure DerivedMetrics where
  total_span : ℚ
  wing_area : ℚ
  aspect : Option ℚ
deriving DecidableEq, Repr

/-- The metrics computation of `generate_3d_model` (lines 239-241):
`total_span = semi_span * 2`, `wing_area = semi_span * (root_chord + tip_chord)`,
`aspect_ratio = total_span ** 2 / wing_area if wing_area > 0 else None`. -/
def derived_metrics (p : WingParameters) : DerivedMetrics :=
  let ts := p.semi_span * 2
  let wa := p.semi_span * (p.root_chord + p.tip_chord)
  { total_span := ts,
    wing_area := wa,
    aspect := if 0 < wa then some (ts ^ 2 / wa) else none }

/-- The clamping-and-assembly stage of `_parse_prompt` in `ai/extraction.py`
(lines 111-121), parameterized over the four numeric values its regex-search
helper `_find` produces (each is either a captured decimal literal or the
hard-coded default, so every prompt yields some quadruple of rationals):
`semi_span = max(span/2, 1.0)`, `taper_ratio = max(taper, 0.1)`,
`root_chord = max(root_chord, 0.5)`, sweep passed through unclamped. -/
def parse_prompt_from (spanVal rootVal sweepVal taperVal : ℚ) : WingParameters :=
  { root_chord := max rootVal (1/2),
    semi_span := max (spanVal / 2) 1,
    sweep_angle_deg := sweepVal,
    taper := max taperVal (1/10) }

/-- The validity condition each validation error identifies: the error for a
field is raised only when that field's guard condition is violated. -/
def offends (p : WingParameters) : GeomField → Prop
  | .rootChordF => p.root_chord ≤ 0
  | .semiSpanF => p.semi_span ≤ 0
  | .taperRatioF => p.taper ≤ 0
  | .sweepAngleF => p.sweep_angle_deg < -90 ∨ 90 < p.sweep_angle_deg

/-- Whether a face of `m` has zero area, reading the vertex positions. -/
def face_zero_area (m : RawMesh) (f : Tri) : Bool :=
  zero_area (tri_pos m.verts f).1 (tri_pos m.verts f).2.1 (tri_pos m.verts f).2.2

theorem validate_ok_iff (p : WingParameters) :
    validate_wing_parameters p = .ok () ↔
      (0 < p.root_chord ∧ 0 < p.semi_span ∧ 0 < p.taper ∧
        -90 ≤ p.sweep_angle_deg ∧ p.sweep_angle_deg ≤ 90) := by
  unfold validate_wing_parameters
  split_ifs with h1 h2 h3 h4
  · exact ⟨fun h => h.elim, fun hc => (not_le.mpr hc.1) h1⟩
  · exact ⟨fun h => h.elim, fun hc => (not_le.mpr hc.2.1) h2⟩
  · exact ⟨fun h => h.elim, fun hc => (not_le.mpr hc.2.2.1) h3⟩
  · exact ⟨fun _ => ⟨not_le.mp h1, not_le.mp h2, not_le.mp h3, h4.1, h4.2⟩, fun _ => rfl⟩
  · exact ⟨fun h => h.elim, fun hc => h4 ⟨hc.2.2.2.1, hc.2.2.2.2⟩⟩

theorem validate_error_field (p : WingParameters) (f : GeomField)
    (h : validate_wing_parameters p = .error f) : offends p f := by
  unfold validate_wing_parameters at h
  split_ifs at h with h1 h2 h3 h4
  · injection h with h'
    subst h'
    exact h1
  · injection h with h'
    subst h'
    exact h2
  · injection h with h'
    subst h'
    exact h3
  · injection h with h'
    subst h'
    rcases not_and_or.mp h4 with h | h
    · exact Or.inl (not_le.mp h)
    · exact Or.inr (not_le.mp h)

/-- C4: the wing parameter validator fails with an error exactly when
`root_chord ≤ 0`, `semi_span ≤ 0`, `taper_ratio ≤ 0`, or `sweep_angle_deg`
lies outside `[-90, 90]`; on every spec satisfying all four conditions it
succeeds (returning `()`, with no other effect), and whenever it fails the
error names a field whose guard condition is indeed violated. -/
theorem validator_iff_and_field (p : WingParameters) :
    ((∃ f, validate_wing_parameters p = .error f) ↔
      (p.root_chord ≤ 0 ∨ p.semi_span ≤ 0 ∨ p.taper ≤ 0 ∨
        p.sweep_angle_deg < -90 ∨ 90 < p.sweep_angle_deg)) ∧
    (∀ f, validate_wing_parameters p = .error f → offends p f) ∧
    ((0 < p.root_chord ∧ 0 < p.semi_span ∧ 0 < p.taper ∧
        -90 ≤ p.sweep_angle_deg ∧ p.sweep_angle_deg ≤ 90) →
      validate_wing_parameters p = .ok ()) := by
  refine ⟨⟨?_, ?_⟩, fun f hf => validate_error_field p f hf,
    fun hc => (validate_ok_iff p).mpr hc⟩
  · rintro ⟨f, hf⟩
    by_contra hc
    push_neg at hc
    obtain ⟨a, b, c, d, e⟩ := hc
    rw [(validate_ok_iff p).mpr ⟨a, b, c, d, e⟩] at hf
    exact Except.noConfusion hf
  · intro hd
    rcases hv : validate_wing_parameters p with f | u
    · exact ⟨f, rfl⟩
    · obtain ⟨a, b, c, d, e⟩ := (validate_ok_iff p).mp (by cases u; exact hv)
      rcases hd with h | h | h | h | h <;> linarith

/-- Witness for C4 at a concrete input: the validator rejects a sweep angle
of 91 degrees, and the reported field's condition is indeed violated. -/
theorem validator_iff_and_field_witness :
    validate_wing_parameters ⟨2, 5, 91, 1⟩ = .error .sweepAngleF ∧
    offends ⟨2, 5, 91, 1⟩ .sweepAngleF := by
  have h : validate_wing_parameters ⟨2, 5, 91, 1⟩ = .error .sweepAngleF := by
    norm_num [validate_wing_parameters]
  exact ⟨h, (validator_iff_and_field ⟨2, 5, 91, 1⟩).2.1 .sweepAngleF h⟩

/-- C3: the derived metrics calculator is a pure function of the wing
parameters with `tip_chord = root_chord * taper_ratio`,
`total_span = 2 * semi_span`, `wing_area = semi_span * (root_chord +
tip_chord)`, `aspect_ratio = total_span ^ 2 / wing_area` when the wing area
is positive and absent otherwise; evaluated at root 2, taper 1/2, semi-span
5, it gives tip chord 1, total span 10, wing area 15 and aspect ratio
100/15. -/
theorem derived_metrics_spec (p : WingParameters) :
    p.tip_chord = p.root_chord * p.taper ∧
    (derived_metrics p).total_span = 2 * p.semi_span ∧
    (derived_metrics p).wing_area = p.semi_span * (p.root_chord + p.tip_chord) ∧
    (0 < (derived_metrics p).wing_area →
      (derived_metrics p).aspect =
        some ((derived_metrics p).total_span ^ 2 / (derived_metrics p).wing_area)) ∧
    ((derived_metrics p).wing_area ≤ 0 → (derived_metrics p).aspect = none) ∧
    ((⟨2, 5, 25, 1/2⟩ : WingParameters).tip_chord = 1 ∧
      derived_metrics ⟨2, 5, 25, 1/2⟩ =
        { total_span := 10, wing_area := 15, aspect := some (100/15) }) := by
  refine ⟨rfl, by simp [derived_metrics]; ring, rfl, ?_, ?_, ?_⟩
  · intro h
    simp only [derived_metrics] at h ⊢
    rw [if_pos h]
  · intro h
    simp only [derived_metrics] at h ⊢
    rw [if_neg (not_lt.mpr h)]
  · constructor
    · norm_num [WingParameters.tip_chord]
    · norm_num [derived_metrics, WingParameters.tip_chord]

/-- Witness for C3 at a concrete input: the wing area at the reference spec
is positive and the aspect ratio is reported as span squared over area. -/
theorem derived_metrics_spec_witness :
    0 < (derived_metrics ⟨2, 5, 25, 1⟩).wing_area ∧
    (derived_metrics ⟨2, 5, 25, 1⟩).aspect =
      some ((derived_metrics ⟨2, 5, 25, 1⟩).total_span ^ 2 /
        (derived_metrics ⟨2, 5, 25, 1⟩).wing_area) := by
  have h : 0 < (derived_metrics ⟨2, 5, 25, 1⟩).wing_area := by
    norm_num [derived_metrics, WingParameters.tip_chord]
  exact ⟨h, (derived_metrics_spec ⟨2, 5, 25, 1⟩).2.2.2.1 h⟩

/-- C10: the prompt parser clamps its outputs to `root_chord ≥ 0.5`,
`semi_span ≥ 1` and `taper_ratio ≥ 0.1` — for every quadruple of raw numeric
values the regex stage can produce, the assembled parameters satisfy those
bounds, so if the validator rejects parser-produced parameters at all, the
error is the sweep-angle one: the other three error branches are
unreachable. -/
theorem parse_prompt_clamped (spanVal rootVal sweepVal taperVal : ℚ) :
    (1/2 ≤ (parse_prompt_from spanVal rootVal sweepVal taperVal).root_chord ∧
     1 ≤ (parse_prompt_from spanVal rootVal sweepVal taperVal).semi_span ∧
     1/10 ≤ (parse_prompt_from spanVal rootVal sweepVal taperVal).taper) ∧
    ((∃ f, validate_wing_parameters (parse_prompt_from spanVal rootVal sweepVal taperVal) =
        .error f) →
      validate_wing_parameters (parse_prompt_from spanVal rootVal sweepVal taperVal) =
        .error .sweepAngleF) := by
  set q := parse_prompt_from spanVal rootVal sweepVal taperVal with hq
  have hrc : ¬ q.root_chord ≤ 0 := by
    have : (1/2 : ℚ) ≤ q.root_chord := le_max_right _ _
    linarith
  have hss : ¬ q.semi_span ≤ 0 := by
    have : (1 : ℚ) ≤ q.semi_span := le_max_right _ _
    linarith
  have htr : ¬ q.taper ≤ 0 := by
    have : (1/10 : ℚ) ≤ q.taper := le_max_right _ _
    linarith
  refine ⟨⟨le_max_right _ _, le_max_right _ _, le_max_right _ _⟩, ?_⟩
  rintro ⟨f, hf⟩
  unfold validate_wing_parameters at hf ⊢
  rw [if_neg hrc, if_neg hss, if_neg htr] at hf ⊢
  split_ifs at hf ⊢ with h
  rfl

/-- Witness for C10 at a concrete input: with a raw sweep value of 91, the
validator does fail on the parser output, and it fails with the sweep-angle
error. -/
theorem parse_prompt_clamped_witness :
    (∃ f, validate_wing_parameters (parse_prompt_from 10 2 91 1) = .error f) ∧
    validate_wing_parameters (parse_prompt_from 10 2 91 1) = .error .sweepAngleF := by
  have h : ∃ f, validate_wing_parameters (parse_prompt_from 10 2 91 1) = .error f := by
    refine ⟨.sweepAngleF, ?_⟩
    norm_num [validate_wing_parameters, parse_prompt_from]
  exact ⟨h, (parse_prompt_clamped 10 2 91 1).2 h⟩

/-- C7 (amended): the lofting engine's per-station chord is the linear-taper
interpolation clamped below at 0.05; with `taper_ratio = 1` this makes the
chord `max root_chord 0.05` at every station, which equals `root_chord`
exactly when `root_chord ≥ 0.05`. -/
theorem chord_clamped (p : WingParameters) (y : ℚ) :
    chord_at p y =
      max (p.root_chord * (1 - (1 - p.taper) * (|y| / p.semi_span))) (1/20) ∧
    (p.taper = 1 → chord_at p y = max p.root_chord (1/20)) ∧
    (p.taper = 1 → 1/20 ≤ p.root_chord → chord_at p y = p.root_chord) := by
  refine ⟨rfl, ?_, ?_⟩
  · intro ht
    simp [chord_at, ht]
  · intro ht hrc
    simp [chord_at, ht, max_eq_left hrc]
    linarith

/-- Witness for C7 at a concrete input: a rectangular wing
(`taper_ratio = 1`) with root chord 2 keeps chord 2 at station 3. -/
theorem chord_clamped_witness :
    (⟨2, 5, 25, 1⟩ : WingParameters).taper = 1 ∧ (1/20 : ℚ) ≤ 2 ∧
    chord_at ⟨2, 5, 25, 1⟩ 3 = 2 := by
  exact ⟨rfl, by norm_num,
    (chord_clamped ⟨2, 5, 25, 1⟩ 3).2.2 rfl (by norm_num)⟩

/-- Counterexample to C7 as stated: the spec ⟨root_chord 1/100, semi_span 5,
sweep 25, taper 1⟩ passes validation and has `taper_ratio = 1`, yet the
station chord at y = 0 is the clamp value 1/20, not the root chord 1/100 —
so "taper_ratio = 1 implies chord(y) = root_chord" fails for validated specs
with root chord below the clamp. -/
theorem chord_taper_one_counterexample :
    validate_wing_parameters ⟨1/100, 5, 25, 1⟩ = .ok () ∧
    (⟨1/100, 5, 25, 1⟩ : WingParameters).taper = 1 ∧
    |(0 : ℚ)| ≤ (⟨1/100, 5, 25, 1⟩ : WingParameters).semi_span ∧
    chord_at ⟨1/100, 5, 25, 1⟩ 0 ≠ (⟨1/100, 5, 25, 1⟩ : WingParameters).root_chord := by
  refine ⟨by norm_num [validate_wing_parameters], rfl, by norm_num, ?_⟩
  norm_num [chord_at]

/-- C9: the mesh builder fails with its construction error exactly when the
profile supplies fewer than 4 points; with at least 4 profile points it
returns the lofted mesh and raises no error. -/
theorem build_wing_mesh_error_iff (xp zp : List ℚ) (p : WingParameters) (t : ℚ) :
    (build_wing_mesh xp zp p t = .error .insufficientPoints ↔ xp.length < 4) ∧
    (4 ≤ xp.length → build_wing_mesh xp zp p t = .ok (raw_mesh_of xp zp p t)) := by
  constructor
  · unfold build_wing_mesh
    split_ifs with h
    · simp [h]
    · simp [h]
  · intro h
    unfold build_wing_mesh
    rw [if_neg (not_lt.mpr h)]

/-- Witness for C9 at a concrete input: a 4-point profile builds a mesh with
no error. -/
theorem build_wing_mesh_error_iff_witness :
    4 ≤ ([0, 0, 1, 1] : List ℚ).length ∧
    build_wing_mesh [0, 0, 1, 1] [0, 1, 0, 1] ⟨1, 1, 0, 1⟩ 0 =
      .ok (raw_mesh_of [0, 0, 1, 1] [0, 1, 0, 1] ⟨1, 1, 0, 1⟩ 0) := by
  exact ⟨by norm_num,
    (build_wing_mesh_error_iff [0, 0, 1, 1] [0, 1, 0, 1] ⟨1, 1, 0, 1⟩ 0).2 (by norm_num)⟩

theorem linspace_length (a b : ℚ) (n : ℕ) : (linspace a b n).length = n := by
  unfold linspace
  split_ifs with h1 h2
  · simp [h1]
  · simp [h2]
  · rw [List.length_map, List.length_range]

theorem linspace_getElem? (a b : ℚ) {n j : ℕ} (hn : 2 ≤ n) (hj : j < n) :
    (linspace a b n)[j]? = some (a + (b - a) * j / ((n : ℚ) - 1)) := by
  unfold linspace
  rw [if_neg (by omega), if_neg (by omega)]
  rw [List.getElem?_map, List.getElem?_range hj]
  rfl

theorem linspace01_getElem? {n j : ℕ} (hn : 2 ≤ n) (hj : j < n) :
    (linspace 0 1 n)[j]? = some ((j : ℚ) / ((n : ℚ) - 1)) := by
  rw [linspace_getElem? 0 1 hn hj]
  norm_num

/-- C6: the airfoil profile decoder evaluates both degree-30 surface
polynomials at `n` uniformly spaced points of `[0, 1]` (the j-th sample is
`j / (n - 1)`), divides the upper-surface values by 1,000,000 and leaves the
lower surface unscaled, and returns the reversed upper samples concatenated
with the unreversed lower samples: `2n` points in each coordinate, with the
first and last x-coordinate both 1 (the trailing edge). -/
theorem airfoil_decoder_spec (upper lower : List ℚ) (n : ℕ) (hn : 2 ≤ n) :
    (get_airfoil_coords upper lower n).1.length = 2 * n ∧
    (get_airfoil_coords upper lower n).2.length = 2 * n ∧
    (get_airfoil_coords upper lower n).1[0]? = some 1 ∧
    (get_airfoil_coords upper lower n).1[2 * n - 1]? = some 1 ∧
    (∀ k, k < n →
      (get_airfoil_coords upper lower n).1[k]? =
        some ((((n : ℚ) - 1) - k) / ((n : ℚ) - 1)) ∧
      (get_airfoil_coords upper lower n).2[k]? =
        some (evalPoly31 upper ((((n : ℚ) - 1) - k) / ((n : ℚ) - 1)) / 1000000)) ∧
    (∀ k, k < n →
      (get_airfoil_coords upper lower n).1[n + k]? = some ((k : ℚ) / ((n : ℚ) - 1)) ∧
      (get_airfoil_coords upper lower n).2[n + k]? =
        some (evalPoly31 lower ((k : ℚ) / ((n : ℚ) - 1)))) := by
  have hne : ((n : ℚ) - 1) ≠ 0 := by
    have : (2 : ℚ) ≤ (n : ℚ) := by exact_mod_cast hn
    linarith
  have hlen : (linspace 0 1 n).length = n := linspace_length 0 1 n
  have hulen : ((linspace 0 1 n).map (fun x => evalPoly31 upper x / 1000000)).length = n := by
    simp [hlen]
  have hllen : ((linspace 0 1 n).map (fun x => evalPoly31 lower x)).length = n := by
    simp [hlen]
  have hfirst : ∀ k, k < n →
      (get_airfoil_coords upper lower n).1[k]? =
        some ((((n : ℚ) - 1) - k) / ((n : ℚ) - 1)) ∧
      (get_airfoil_coords upper lower n).2[k]? =
        some (evalPoly31 upper ((((n : ℚ) - 1) - k) / ((n : ℚ) - 1)) / 1000000) := by
    intro k hk
    have hcast : ((n - 1 - k : ℕ) : ℚ) = ((n : ℚ) - 1) - k := by
      have h1 : k ≤ n - 1 := by omega
      have h2 : 1 ≤ n := by omega
      push_cast [Nat.cast_sub h1, Nat.cast_sub h2]
      ring
    constructor
    · show ((linspace 0 1 n).reverse ++ linspace 0 1 n)[k]? = _
      rw [List.getElem?_append_left (by rw [List.length_reverse, hlen]; omega)]
      rw [List.getElem?_reverse (by rw [hlen]; omega), hlen]
      rw [linspace01_getElem? hn (by omega), hcast]
    · show (((linspace 0 1 n).map fun x => evalPoly31 upper x / 1000000).reverse ++
          (linspace 0 1 n).map fun x => evalPoly31 lower x)[k]? = _
      rw [List.getElem?_append_left (by rw [List.length_reverse, hulen]; omega)]
      rw [List.getElem?_reverse (by rw [hulen]; omega), hulen]
      rw [List.getElem?_map, linspace01_getElem? hn (by omega), hcast]
      rfl
  have hsecond : ∀ k, k < n →
      (get_airfoil_coords upper lower n).1[n + k]? = some ((k : ℚ) / ((n : ℚ) - 1)) ∧
      (get_airfoil_coords upper lower n).2[n + k]? =
        some (evalPoly31 lower ((k : ℚ) / ((n : ℚ) - 1))) := by
    intro k hk
    constructor
    · show ((linspace 0 1 n).reverse ++ linspace 0 1 n)[n + k]? = _
      rw [List.getElem?_append_right (by rw [List.length_reverse, hlen]; omega)]
      rw [List.length_reverse, hlen, show n + k - n = k by omega]
      exact linspace01_getElem? hn hk
    · show (((linspace 0 1 n).map fun x => evalPoly31 upper x / 1000000).reverse ++
          (linspace 0 1 n).map fun x => evalPoly31 lower x)[n + k]? = _
      rw [List.getElem?_append_right (by rw [List.length_reverse, hulen]; omega)]
      rw [List.length_reverse, hulen, show n + k - n = k by omega]
      rw [List.getElem?_map, linspace01_getElem? hn hk]
      rfl
  refine ⟨by simp [get_airfoil_coords, hlen, two_mul],
    by simp [get_airfoil_coords, hlen, two_mul], ?_, ?_, hfirst, hsecond⟩
  · have h0 := (hfirst 0 (by omega)).1
    rw [h0]
    norm_num [div_self hne]
  · have hl := (hsecond (n - 1) (by omega)).1
    rw [show 2 * n - 1 = n + (n - 1) by omega, hl]
    have hc : ((n - 1 : ℕ) : ℚ) = (n : ℚ) - 1 := by
      push_cast [Nat.cast_sub (by omega : 1 ≤ n)]
      ring
    rw [hc, div_self hne]

/-- Witness for C6 at a concrete input: with 2 samples per surface the
decoded profile starts at the trailing edge x = 1. -/
theorem airfoil_decoder_spec_witness :
    2 ≤ 2 ∧ (get_airfoil_coords [1] [2] 2).1[0]? = some 1 := by
  exact ⟨by norm_num, (airfoil_decoder_spec [1] [2] 2 (by norm_num)).2.2.1⟩

theorem station_section_mirror (xp zp : List ℚ) (p : WingParameters) (t y : ℚ) :
    station_section xp zp p t (-y) = (station_section xp zp p t y).map mirrorP3 := by
  simp only [station_section, chord_at, abs_neg, List.map_map]
  rfl

theorem y_positions_symm (p : WingParameters) {n i : ℕ} (hn : 2 ≤ n) (hi : i < n) :
    ∃ yi, (y_positions p n)[i]? = some yi ∧
      (y_positions p n)[n - 1 - i]? = some (-yi) := by
  have hne : ((n : ℚ) - 1) ≠ 0 := by
    have : (2 : ℚ) ≤ (n : ℚ) := by exact_mod_cast hn
    linarith
  refine ⟨-p.semi_span + (p.semi_span - -p.semi_span) * i / ((n : ℚ) - 1), ?_, ?_⟩
  · exact linspace_getElem? _ _ hn hi
  · rw [y_positions, linspace_getElem? _ _ hn (by omega)]
    congr 1
    have hcast : ((n - 1 - i : ℕ) : ℚ) = ((n : ℚ) - 1) - i := by
      push_cast [Nat.cast_sub (by omega : i ≤ n - 1), Nat.cast_sub (by omega : 1 ≤ n)]
      ring
    rw [hcast]
    field_simp
    ring

/-- C5: mirror symmetry of the lofted output — every lofted vertex with
positive spanwise coordinate has a mirrored output vertex with identical x
and z and negated y (exact equality in the rational embedding, hence within
any floating-point epsilon), and the station at index `n-1-i` carries, point
for point in the same profile order, the mirror image of the station at
index `i`. -/
theorem loft_mirror (xp zp : List ℚ) (p : WingParameters) (t : ℚ) (n : ℕ)
    (hn : 2 ≤ n) :
    (∀ v ∈ loft_vertices xp zp p t n, 0 < v.y →
      ∃ w ∈ loft_vertices xp zp p t n, w.x = v.x ∧ w.y = -v.y ∧ w.z = v.z) ∧
    (∀ i, i < n → ∃ yi, (y_positions p n)[i]? = some yi ∧
      (y_positions p n)[n - 1 - i]? = some (-yi) ∧
      station_section xp zp p t (-yi) =
        (station_section xp zp p t yi).map mirrorP3) := by
  constructor
  · intro v hv _
    rw [loft_vertices, List.mem_flatten] at hv
    obtain ⟨l, hl, hvl⟩ := hv
    rw [List.mem_map] at hl
    obtain ⟨yv, hyv, rfl⟩ := hl
    rw [List.mem_iff_getElem?] at hyv
    obtain ⟨i, hi⟩ := hyv
    have hilt : i < n := by
      have := List.getElem?_eq_some.mp hi
      obtain ⟨h, -⟩ := this
      rwa [y_positions, linspace_length] at h
    obtain ⟨yi, hyi, hyi'⟩ := y_positions_symm p hn hilt
    rw [hi] at hyi
    injection hyi with hyi
    subst hyi
    refine ⟨mirrorP3 v, ?_, rfl, rfl, rfl⟩
    rw [loft_vertices, List.mem_flatten]
    refine ⟨station_section xp zp p t (-yv), ?_, ?_⟩
    · rw [List.mem_map]
      exact ⟨-yv, List.getElem?_mem hyi', rfl⟩
    · rw [station_section_mirror]
      exact List.mem_map_of_mem mirrorP3 hvl
  · intro i hi
    obtain ⟨yi, hyi, hyi'⟩ := y_positions_symm p hn hi
    exact ⟨yi, hyi, hyi', station_section_mirror xp zp p t yi⟩

theorem loft_vertices_concrete :
    loft_vertices [0, 1] [0, 0] ⟨1, 1, 0, 1⟩ 0 2 =
      [⟨0, -1, 0⟩, ⟨1, -1, 0⟩, ⟨0, 1, 0⟩, ⟨1, 1, 0⟩] := by
  norm_num [loft_vertices, y_positions, linspace, station_section, chord_at,
    THICKNESS_FACTOR, List.range_succ, List.zip, max_def, abs]

/-- Witness for C5 at a concrete input: the vertex (1, 1, 0) of a 2-station
loft has positive y and a mirrored partner in the output. -/
theorem loft_mirror_witness :
    2 ≤ 2 ∧ (⟨1, 1, 0⟩ : P3) ∈ loft_vertices [0, 1] [0, 0] ⟨1, 1, 0, 1⟩ 0 2 ∧
    (0 : ℚ) < (⟨1, 1, 0⟩ : P3).y ∧
    ∃ w ∈ loft_vertices [0, 1] [0, 0] ⟨1, 1, 0, 1⟩ 0 2,
      w.x = (⟨1, 1, 0⟩ : P3).x ∧ w.y = -(⟨1, 1, 0⟩ : P3).y ∧ w.z = (⟨1, 1, 0⟩ : P3).z := by
  have hm : (⟨1, 1, 0⟩ : P3) ∈ loft_vertices [0, 1] [0, 0] ⟨1, 1, 0, 1⟩ 0 2 := by
    rw [loft_vertices_concrete]
    simp
  exact ⟨by norm_num, hm, by norm_num,
    (loft_mirror [0, 1] [0, 0] ⟨1, 1, 0, 1⟩ 0 2 (by norm_num)).1 ⟨1, 1, 0⟩ hm (by norm_num)⟩

theorem section_faces_eq_wrap (np sec : ℕ) (hnp : 1 ≤ np) :
    section_faces np (sec * np) ((sec + 1) * np) =
      ((List.range np).map (wrap_quad np sec)).flatten := by
  have hsplit : List.range np = List.range (np - 1) ++ [np - 1] := by
    rw [show np = (np - 1) + 1 by omega, List.range_succ]
    simp
  rw [hsplit, List.map_append, List.flatten_append]
  unfold section_faces
  congr 1
  · apply congrArg
    apply List.map_congr_left
    intro pt hpt
    rw [List.mem_range] at hpt
    unfold quad_faces wrap_quad
    rw [Nat.mod_eq_of_lt (by omega : pt + 1 < np)]
    simp [Nat.add_assoc]
  · unfold wrap_quad
    simp only [List.flatten, List.append_nil]
    rw [Nat.sub_add_cancel hnp, Nat.mod_self]
    have h1 : sec * np + np - 1 = sec * np + (np - 1) := by omega
    have h2 : (sec + 1) * np + np - 1 = (sec + 1) * np + (np - 1) := by omega
    rw [h1, h2]
    simp

theorem build_faces_eq_quad_strip (nSec np : ℕ) (hnp : 1 ≤ np) :
    build_faces nSec np = quad_strip_faces nSec np := by
  unfold build_faces quad_strip_faces
  apply congrArg
  apply List.map_congr_left
  intro sec _
  exact section_faces_eq_wrap np sec hnp

theorem sum_map_const_nat {α : Type} (l : List α) (c : ℕ) :
    (l.map (fun _ => c)).sum = c * l.length := by
  induction l with
  | nil => simp
  | cons a t ih =>
    simp [ih]
    ring

theorem section_faces_length (np c nx : ℕ) (hnp : 1 ≤ np) :
    (section_faces np c nx).length = 2 * np := by
  unfold section_faces
  rw [List.length_append, List.length_flatten, List.map_map]
  have h : List.map (List.length ∘ quad_faces c nx) (List.range (np - 1)) =
      List.map (fun _ => 2) (List.range (np - 1)) := by
    apply List.map_congr_left
    intro pt _
    rfl
  rw [h, sum_map_const_nat, List.length_range]
  simp only [List.length_cons, List.length_nil]
  omega

theorem build_faces_length (nSec np : ℕ) (hnp : 1 ≤ np) :
    (build_faces nSec np).length = 2 * (nSec - 1) * np := by
  unfold build_faces
  rw [List.length_flatten, List.map_map]
  have h : List.map (List.length ∘ fun sec => section_faces np (sec * np) ((sec + 1) * np))
      (List.range (nSec - 1)) = List.map (fun _ => 2 * np) (List.range (nSec - 1)) := by
    apply List.map_congr_left
    intro sec _
    exact section_faces_length np _ _ hnp
  rw [h, sum_map_const_nat, List.length_range]
  ring

theorem station_section_length (xp zp : List ℚ) (p : WingParameters) (t y : ℚ) :
    (station_section xp zp p t y).length = min xp.length zp.length := by
  simp [station_section]

theorem loft_vertices_length (xp zp : List ℚ) (p : WingParameters) (t : ℚ)
    (n : ℕ) (hzp : zp.length = xp.length) :
    (loft_vertices xp zp p t n).length = n * xp.length := by
  unfold loft_vertices
  rw [List.length_flatten, List.map_map]
  have h : List.map (List.length ∘ station_section xp zp p t) (y_positions p n) =
      List.map (fun _ => xp.length) (y_positions p n) := by
    apply List.map_congr_left
    intro y _
    simp [station_section_length, hzp]
  rw [h, sum_map_const_nat, y_positions, linspace_length]
  ring

/-- C2: under the lofted policy, an input of `2S` stations each carrying
`2N` profile points produces, before cleanup, exactly `2S * 2N` vertices and
exactly `2 * (2S - 1) * 2N` triangles. -/
theorem mesh_counts (xp zp : List ℚ) (p : WingParameters) (t : ℚ) (S N : ℕ)
    (hS : 1 ≤ S) (hN : 2 ≤ N) (hx : xp.length = 2 * N) (hz : zp.length = 2 * N) :
    (loft_vertices xp zp p t (2 * S)).length = 2 * S * (2 * N) ∧
    (build_faces (2 * S) (2 * N)).length = 2 * (2 * S - 1) * (2 * N) := by
  constructor
  · rw [loft_vertices_length xp zp p t (2 * S) (by omega), hx]
  · exact build_faces_length (2 * S) (2 * N) (by omega)

/-- Witness for C2 at a concrete input: one station pair (S = 1) and a
4-point profile (N = 2) give 8 vertices and 8 triangles. -/
theorem mesh_counts_witness :
    1 ≤ 1 ∧ 2 ≤ 2 ∧ ([0, 0, 1, 1] : List ℚ).length = 2 * 2 ∧
    ([0, 1, 0, 1] : List ℚ).length = 2 * 2 ∧
    (loft_vertices [0, 0, 1, 1] [0, 1, 0, 1] ⟨1, 1, 0, 1⟩ 0 (2 * 1)).length =
      2 * 1 * (2 * 2) ∧
    (build_faces (2 * 1) (2 * 2)).length = 2 * (2 * 1 - 1) * (2 * 2) := by
  have h := mesh_counts [0, 0, 1, 1] [0, 1, 0, 1] ⟨1, 1, 0, 1⟩ 0 1 2
    (by norm_num) (by norm_num) (by norm_num) (by norm_num)
  exact ⟨by norm_num, by norm_num, by norm_num, by norm_num, h.1, h.2⟩

/-- C1 (amended): the extraction-pipeline mesh builder's face buffer always
equals the lofted quad-strip reference construction (two triangles per quad
of adjacent stations and mod-wrapped adjacent profile indices); the separate
services-pipeline export path, by contrast, requests the convex hull of the
unordered vertex cloud on every call, supplying no face connectivity — it
has no opt-in parameter. -/
theorem mesh_default_policy (nSec np : ℕ) (hnp : 1 ≤ np)
    (xNorm yNorm : List ℚ) (cr s t taperR : ℚ) :
    build_faces nSec np = quad_strip_faces nSec np ∧
    (export_3d_wing_request xNorm yNorm cr s t taperR).strategy =
      MeshingStrategy.convexHull ∧
    (export_3d_wing_request xNorm yNorm cr s t taperR).providedFaces = none := by
  exact ⟨build_faces_eq_quad_strip nSec np hnp, rfl, rfl⟩

/-- Witness for C1 at a concrete input: for the source's 24 stations and a
4-point profile, the built face buffer is the quad-strip reference. -/
theorem mesh_default_policy_witness :
    1 ≤ 4 ∧ build_faces NUM_SPAN_SECTIONS 4 = quad_strip_faces NUM_SPAN_SECTIONS 4 := by
  exact ⟨by norm_num,
    (mesh_default_policy NUM_SPAN_SECTIONS 4 (by norm_num) [0, 1] [0, 0] 2 5 0 1).1⟩

/-- Counterexample to C1 as stated: at a concrete decoded profile and
validated WingSpec, the services pipeline's meshing step requests the convex
hull while supplying no face connectivity — the function has no
triangulation-policy parameter, so the hull is applied unconditionally, not
on an explicit opt-in; the discarded quad-strip connectivity for the same
dimensions is non-empty. -/
theorem convex_hull_not_opt_in :
    validate_wing_parameters ⟨2, 5, 0, 1⟩ = .ok () ∧
    (export_3d_wing_request [0, 1] [0, 0] 2 5 0 1).strategy =
      MeshingStrategy.convexHull ∧
    (export_3d_wing_request [0, 1] [0, 0] 2 5 0 1).providedFaces = none ∧
    quad_strip_faces NUM_SPAN_SECTIONS 4 ≠ [] := by
  refine ⟨by norm_num [validate_wing_parameters], rfl, rfl, ?_⟩
  decide

theorem quad_strip_valid (nSec np : ℕ) :
    ∀ f ∈ quad_strip_faces nSec np,
      f.1 < nSec * np ∧ f.2.1 < nSec * np ∧ f.2.2 < nSec * np := by
  intro f hf
  unfold quad_strip_faces at hf
  rw [List.mem_flatten] at hf
  obtain ⟨l, hl, hfl⟩ := hf
  rw [List.mem_map] at hl
  obtain ⟨sec, hsec, rfl⟩ := hl
  rw [List.mem_range] at hsec
  rw [List.mem_flatten] at hfl
  obtain ⟨l2, hl2, hfl2⟩ := hfl
  rw [List.mem_map] at hl2
  obtain ⟨pt, hpt, rfl⟩ := hl2
  rw [List.mem_range] at hpt
  have hnp : 0 < np := by omega
  have hpt1 : (pt + 1) % np < np := Nat.mod_lt _ hnp
  have hsec2 : sec + 2 ≤ nSec := by omega
  have hcurr : ∀ q, q < np → sec * np + q < nSec * np := by
    intro q hq
    calc sec * np + q < sec * np + np := by omega
      _ = (sec + 1) * np := by ring
      _ ≤ nSec * np := Nat.mul_le_mul_right np (by omega)
  have hnext : ∀ q, q < np → (sec + 1) * np + q < nSec * np := by
    intro q hq
    calc (sec + 1) * np + q < (sec + 1) * np + np := by omega
      _ = (sec + 2) * np := by ring
      _ ≤ nSec * np := Nat.mul_le_mul_right np hsec2
  unfold wrap_quad at hfl2
  simp only [List.mem_cons, List.not_mem_nil, or_false] at hfl2
  rcases hfl2 with rfl | rfl
  · exact ⟨hcurr pt hpt, hnext pt hpt, hcurr _ hpt1⟩
  · exact ⟨hcurr _ hpt1, hnext pt hpt, hnext _ hpt1⟩

theorem validIdx_build (xp zp : List ℚ) (p : WingParameters) (t : ℚ)
    (hlen : zp.length = xp.length) (hnp : 1 ≤ xp.length) :
    validIdx (raw_mesh_of xp zp p t) := by
  intro f hf
  have hf' : f ∈ build_faces NUM_SPAN_SECTIONS xp.length := hf
  rw [build_faces_eq_quad_strip _ _ hnp] at hf'
  have h := quad_strip_valid NUM_SPAN_SECTIONS xp.length f hf'
  show f.1 < (loft_vertices xp zp p t NUM_SPAN_SECTIONS).length ∧
    f.2.1 < (loft_vertices xp zp p t NUM_SPAN_SECTIONS).length ∧
    f.2.2 < (loft_vertices xp zp p t NUM_SPAN_SECTIONS).length
  rw [loft_vertices_length xp zp p t _ hlen]
  exact h

theorem validIdx_remove_degenerate {m : RawMesh} (h : validIdx m) :
    validIdx (remove_degenerate m) := by
  intro f hf
  exact h f (List.mem_of_mem_filter hf)

theorem validIdx_remove_duplicate {m : RawMesh} (h : validIdx m) :
    validIdx (remove_duplicate m) := by
  intro f hf
  exact h f (List.dedup_subset m.faces hf)

theorem referenced_of_face {m : RawMesh} {f : Tri} (hf : f ∈ m.faces) :
    referenced m f.1 = true ∧ referenced m f.2.1 = true ∧ referenced m f.2.2 = true := by
  unfold referenced
  refine ⟨?_, ?_, ?_⟩ <;> rw [List.any_eq_true]
  · exact ⟨f, hf, by simp⟩
  · exact ⟨f, hf, by simp⟩
  · exact ⟨f, hf, by simp⟩

theorem mem_keep_list {m : RawMesh} {i : ℕ} (hi : i < m.verts.length)
    (href : referenced m i = true) : i ∈ keep_list m := by
  rw [keep_list, List.mem_filter]
  exact ⟨List.mem_range.mpr hi, href⟩

theorem validIdx_remove_unreferenced {m : RawMesh} (h : validIdx m) :
    validIdx (remove_unreferenced m) := by
  intro f' hf'
  obtain ⟨f, hf, rfl⟩ := List.mem_map.mp hf'
  obtain ⟨h1, h2, h3⟩ := h f hf
  obtain ⟨r1, r2, r3⟩ := referenced_of_face hf
  show (keep_list m).indexOf f.1 < ((keep_list m).map _).length ∧
    (keep_list m).indexOf f.2.1 < ((keep_list m).map _).length ∧
    (keep_list m).indexOf f.2.2 < ((keep_list m).map _).length
  rw [List.length_map]
  exact ⟨List.indexOf_lt_length.mpr (mem_keep_list h1 r1),
    List.indexOf_lt_length.mpr (mem_keep_list h2 r2),
    List.indexOf_lt_length.mpr (mem_keep_list h3 r3)⟩

theorem validIdx_merge_vertices {m : RawMesh} (h : validIdx m) :
    validIdx (merge_vertices m) := by
  intro f' hf'
  obtain ⟨f, hf, rfl⟩ := List.mem_map.mp hf'
  obtain ⟨h1, h2, h3⟩ := h f hf
  have hmem : ∀ j, j < m.verts.length → m.verts.getD j default ∈ m.verts.dedup := by
    intro j hj
    rw [List.getD_eq_getElem _ _ hj, List.mem_dedup]
    exact List.getElem_mem hj
  exact ⟨List.indexOf_lt_length.mpr (hmem f.1 h1),
    List.indexOf_lt_length.mpr (hmem f.2.1 h2),
    List.indexOf_lt_length.mpr (hmem f.2.2 h3)⟩

theorem map_getD_indexOf {α β : Type} [DecidableEq α] [Inhabited β]
    (l : List α) (g : α → β) (a : α) (ha : a ∈ l) :
    (l.map g).getD (l.indexOf a) default = g a := by
  have hlt : l.indexOf a < l.length := List.indexOf_lt_length.mpr ha
  rw [List.getD_eq_getElem _ _ (by rw [List.length_map]; exact hlt)]
  rw [List.getElem_map, List.getElem_indexOf hlt]

theorem getD_dedup_indexOf {α : Type} [DecidableEq α] [Inhabited α]
    (l : List α) (a : α) (ha : a ∈ l) :
    l.dedup.getD (l.dedup.indexOf a) default = a := by
  have hm : a ∈ l.dedup := List.mem_dedup.mpr ha
  have hlt : l.dedup.indexOf a < l.dedup.length := List.indexOf_lt_length.mpr hm
  rw [List.getD_eq_getElem _ _ hlt, List.getElem_indexOf hlt]

theorem remove_unreferenced_pos {m : RawMesh} (h : validIdx m) :
    ∀ f' ∈ (remove_unreferenced m).faces, ∃ f ∈ m.faces,
      tri_pos (remove_unreferenced m).verts f' = tri_pos m.verts f := by
  intro f' hf'
  obtain ⟨f, hf, rfl⟩ := List.mem_map.mp hf'
  refine ⟨f, hf, ?_⟩
  obtain ⟨h1, h2, h3⟩ := h f hf
  obtain ⟨r1, r2, r3⟩ := referenced_of_face hf
  unfold tri_pos
  simp only [Prod.mk.injEq]
  exact ⟨map_getD_indexOf (keep_list m) _ f.1 (mem_keep_list h1 r1),
    map_getD_indexOf (keep_list m) _ f.2.1 (mem_keep_list h2 r2),
    map_getD_indexOf (keep_list m) _ f.2.2 (mem_keep_list h3 r3)⟩

theorem merge_vertices_pos {m : RawMesh} (h : validIdx m) :
    ∀ f' ∈ (merge_vertices m).faces, ∃ f ∈ m.faces,
      tri_pos (merge_vertices m).verts f' = tri_pos m.verts f := by
  intro f' hf'
  obtain ⟨f, hf, rfl⟩ := List.mem_map.mp hf'
  refine ⟨f, hf, ?_⟩
  obtain ⟨h1, h2, h3⟩ := h f hf
  have hmem : ∀ j, j < m.verts.length → m.verts.getD j default ∈ m.verts := by
    intro j hj
    rw [List.getD_eq_getElem _ _ hj]
    exact List.getElem_mem hj
  unfold tri_pos
  simp only [Prod.mk.injEq]
  exact ⟨getD_dedup_indexOf m.verts _ (hmem f.1 h1),
    getD_dedup_indexOf m.verts _ (hmem f.2.1 h2),
    getD_dedup_indexOf m.verts _ (hmem f.2.2 h3)⟩

theorem notDeg_remove_degenerate (m : RawMesh) :
    ∀ f ∈ (remove_degenerate m).faces, face_zero_area (remove_degenerate m) f = false := by
  intro f hf
  have hf' : f ∈ m.faces.filter (fun f => ! zero_area (tri_pos m.verts f).1
      (tri_pos m.verts f).2.1 (tri_pos m.verts f).2.2) := hf
  rw [List.mem_filter] at hf'
  have h2 := hf'.2
  rw [Bool.not_eq_true'] at h2
  exact h2

theorem notDeg_of_pos_eq {m m' : RawMesh}
    (hpos : ∀ f' ∈ m'.faces, ∃ f ∈ m.faces, tri_pos m'.verts f' = tri_pos m.verts f)
    (h : ∀ f ∈ m.faces, face_zero_area m f = false) :
    ∀ f' ∈ m'.faces, face_zero_area m' f' = false := by
  intro f' hf'
  obtain ⟨f, hf, he⟩ := hpos f' hf'
  have hz := h f hf
  unfold face_zero_area at hz ⊢
  rw [he]
  exact hz

theorem allRef_remove_unreferenced (m : RawMesh) :
    ∀ i, i < (remove_unreferenced m).verts.length →
      referenced (remove_unreferenced m) i = true := by
  intro i hi
  have hi' : i < (keep_list m).length := by
    simpa only [remove_unreferenced, List.length_map] using hi
  have hmem : (keep_list m)[i] ∈ keep_list m := List.getElem_mem hi'
  have href : referenced m (keep_list m)[i] = true := by
    have hmem2 : (keep_list m)[i] ∈ (List.range m.verts.length).filter (referenced m) := hmem
    exact (List.mem_filter.mp hmem2).2
  rw [referenced, List.any_eq_true] at href
  obtain ⟨f, hf, hcomp⟩ := href
  rw [decide_eq_true_eq] at hcomp
  have hnodup : (keep_list m).Nodup :=
    (List.nodup_range m.verts.length).filter _
  have hidx : (keep_list m).indexOf (keep_list m)[i] = i :=
    List.indexOf_getElem hnodup i hi'
  rw [referenced, List.any_eq_true]
  refine ⟨((keep_list m).indexOf f.1, (keep_list m).indexOf f.2.1,
    (keep_list m).indexOf f.2.2), List.mem_map_of_mem _ hf, ?_⟩
  rw [decide_eq_true_eq]
  rcases hcomp with hc | hc | hc
  · left
    show (keep_list m).indexOf f.1 = i
    rw [hc, hidx]
  · right
    left
    show (keep_list m).indexOf f.2.1 = i
    rw [hc, hidx]
  · right
    right
    show (keep_list m).indexOf f.2.2 = i
    rw [hc, hidx]

theorem allRef_merge_vertices (m : RawMesh)
    (h : ∀ i, i < m.verts.length → referenced m i = true) :
    ∀ i, i < (merge_vertices m).verts.length →
      referenced (merge_vertices m) i = true := by
  intro i hi
  have hi' : i < m.verts.dedup.length := hi
  have hq : m.verts.dedup[i] ∈ m.verts := List.mem_dedup.mp (List.getElem_mem hi')
  obtain ⟨j, hj, hjq⟩ := List.mem_iff_getElem.mp hq
  have hrefj := h j hj
  rw [referenced, List.any_eq_true] at hrefj
  obtain ⟨f, hf, hcomp⟩ := hrefj
  rw [decide_eq_true_eq] at hcomp
  have hnodup := List.nodup_dedup m.verts
  have hidx : m.verts.dedup.indexOf (m.verts.dedup[i]) = i :=
    List.indexOf_getElem hnodup i hi'
  rw [referenced, List.any_eq_true]
  refine ⟨(m.verts.dedup.indexOf (m.verts.getD f.1 default),
    m.verts.dedup.indexOf (m.verts.getD f.2.1 default),
    m.verts.dedup.indexOf (m.verts.getD f.2.2 default)),
    List.mem_map_of_mem _ hf, ?_⟩
  rw [decide_eq_true_eq]
  rcases hcomp with hc | hc | hc
  · left
    show m.verts.dedup.indexOf (m.verts.getD f.1 default) = i
    rw [hc, List.getD_eq_getElem _ _ hj, hjq, hidx]
  · right
    left
    show m.verts.dedup.indexOf (m.verts.getD f.2.1 default) = i
    rw [hc, List.getD_eq_getElem _ _ hj, hjq, hidx]
  · right
    right
    show m.verts.dedup.indexOf (m.verts.getD f.2.2 default) = i
    rw [hc, List.getD_eq_getElem _ _ hj, hjq, hidx]

/-- C8: for every mesh the builder returns, every entry of the triangle
index buffer is a valid vertex index, and this invariant holds again after
each of the six cleanup passes, applied in the source's order (degenerate
faces, duplicate faces, infinite values, unreferenced vertices, normals,
vertex merge); after the full cleanup no remaining triangle has zero area
and every remaining vertex is referenced by some triangle. -/
theorem mesh_cleanup_invariants (xp zp : List ℚ) (p : WingParameters) (t : ℚ)
    (m0 : RawMesh) (hlen : zp.length = xp.length)
    (hok : build_wing_mesh xp zp p t = .ok m0) :
    validIdx m0 ∧
    validIdx (remove_degenerate m0) ∧
    validIdx (remove_duplicate (remove_degenerate m0)) ∧
    validIdx (remove_infinite (remove_duplicate (remove_degenerate m0))) ∧
    validIdx (remove_unreferenced (remove_infinite (remove_duplicate
      (remove_degenerate m0)))) ∧
    validIdx (fix_normals (remove_unreferenced (remove_infinite (remove_duplicate
      (remove_degenerate m0))))) ∧
    validIdx (cleanup m0) ∧
    (∀ f ∈ (cleanup m0).faces, face_zero_area (cleanup m0) f = false) ∧
    (∀ i, i < (cleanup m0).verts.length → referenced (cleanup m0) i = true) := by
  have hm0 : m0 = raw_mesh_of xp zp p t ∧ 4 ≤ xp.length := by
    unfold build_wing_mesh at hok
    split_ifs at hok with h
    · injection hok with h'
      exact ⟨h'.symm, by omega⟩
  obtain ⟨hm, hxplen⟩ := hm0
  subst hm
  have h0 : validIdx (raw_mesh_of xp zp p t) := validIdx_build xp zp p t hlen (by omega)
  have h1 := validIdx_remove_degenerate h0
  have h2 := validIdx_remove_duplicate h1
  have h3 : validIdx (remove_infinite (remove_duplicate (remove_degenerate
      (raw_mesh_of xp zp p t)))) := h2
  have h4 := validIdx_remove_unreferenced h3
  have h5 : validIdx (fix_normals (remove_unreferenced (remove_infinite
      (remove_duplicate (remove_degenerate (raw_mesh_of xp zp p t)))))) := h4
  have h6 := validIdx_merge_vertices h5
  have d1 := notDeg_remove_degenerate (raw_mesh_of xp zp p t)
  have d2 : ∀ f ∈ (remove_duplicate (remove_degenerate (raw_mesh_of xp zp p t))).faces,
      face_zero_area (remove_duplicate (remove_degenerate (raw_mesh_of xp zp p t))) f =
        false := by
    intro f hf
    exact d1 f (List.dedup_subset _ hf)
  have d4 := notDeg_of_pos_eq (remove_unreferenced_pos h3) d2
  have d6 := notDeg_of_pos_eq (merge_vertices_pos h5) d4
  have r4 := allRef_remove_unreferenced (remove_infinite (remove_duplicate
    (remove_degenerate (raw_mesh_of xp zp p t))))
  have r6 := allRef_merge_vertices _ r4
  exact ⟨h0, h1, h2, h3, h4, h5, h6, d6, r6⟩

/-- Witness for C8 at a concrete input: the builder succeeds on a 4-point
profile and the cleaned mesh satisfies the index-validity invariant. -/
theorem mesh_cleanup_invariants_witness :
    ([0, 1, 0, 1] : List ℚ).length = ([0, 0, 1, 1] : List ℚ).length ∧
    build_wing_mesh [0, 0, 1, 1] [0, 1, 0, 1] ⟨1, 1, 0, 1⟩ 0 =
      .ok (raw_mesh_of [0, 0, 1, 1] [0, 1, 0, 1] ⟨1, 1, 0, 1⟩ 0) ∧
    validIdx (cleanup (raw_mesh_of [0, 0, 1, 1] [0, 1, 0, 1] ⟨1, 1, 0, 1⟩ 0)) := by
  have hok : build_wing_mesh [0, 0, 1, 1] [0, 1, 0, 1] ⟨1, 1, 0, 1⟩ 0 =
      .ok (raw_mesh_of [0, 0, 1, 1] [0, 1, 0, 1] ⟨1, 1, 0, 1⟩ 0) := by
    unfold build_wing_mesh
    norm_num
  exact ⟨rfl, hok,
    (mesh_cleanup_invariants [0, 0, 1, 1] [0, 1, 0, 1] ⟨1, 1, 0, 1⟩ 0 _ rfl hok).2.2.2.2.2.2.1⟩
